import Mathlib

/-!
Shallow embedding of the camera-guided robotic-arm control pipeline:
the actuator interface (`RobotArm` in `backend/hardware/robot_driver.py`),
the hybrid perception coordinator (`backend/hybrid_tracker.py` and
`backend/camera.py`), and the visual-servoing controller
(`backend/visual_servoing.py`).  Python machine behaviour is modelled
with `Int`/`Rat` and explicit truncation; stateful loops become explicit
state-passing functions over the per-cycle observations.
-/

namespace RoboticArm

/-- Python `int()` applied to a rational: truncation toward zero. -/
def pyInt (q : ℚ) : ℤ :=
  if 0 ≤ q then ⌊q⌋ else -⌊-q⌋

theorem pyInt_intCast (z : ℤ) : pyInt (z : ℚ) = z := by
  unfold pyInt
  by_cases h : (0:ℚ) ≤ (z:ℚ)
  · rw [if_pos h, Int.floor_intCast]
  · rw [if_neg h, ← Int.cast_neg, Int.floor_intCast, neg_neg]

theorem pyInt_of_nonneg {q : ℚ} (h : 0 ≤ q) : pyInt q = ⌊q⌋ := by
  unfold pyInt; simp [h]

/-! ## Actuator interface: `RobotArm` (robot_driver.py)

`move_to` validates arity, clamps every joint into 0–180
(`max(0, min(180, int(angle)))`), applies the elbow (≤150) and gripper
([120,170]) safety clamps, inverts the wrist-roll (index 4) for the
hardware packet, transmits `<a1,...,a6>`, and stores the clamped USER
angles as the current pose.  Simulation mode performs the same clamping
and storing and always succeeds. -/

/-- `max(0, min(180, int(angle)))` from `move_to` (line 75). -/
def clamp180 (q : ℚ) : ℤ := max 0 (min 180 (pyInt q))

/-- Elbow safety clamp (index 2): `if clamped > 150 then 150` (lines 81–83). -/
def elbowClamp (v : ℤ) : ℤ := if v > 150 then 150 else v

/-- Gripper safety clamp (index 5): min 120, max 170 (lines 86–91). -/
def gripClamp (v : ℤ) : ℤ := if v < 120 then 120 else if v > 170 then 170 else v

/-- Apply a position-indexed adjustment to a pose, starting at index `i`. -/
def mapJoint (f : ℕ → ℤ → ℤ) : ℕ → List ℤ → List ℤ
  | _, [] => []
  | i, v :: rest => f i v :: mapJoint f (i + 1) rest

/-- The full clamping pipeline of `move_to`: 0–180 clamp on every joint,
then the elbow and gripper safety clamps at indices 2 and 5. -/
def clampPose (angles : List ℚ) : List ℤ :=
  mapJoint (fun i v => if i = 2 then elbowClamp v else if i = 5 then gripClamp v else v)
    0 (angles.map clamp180)

/-- Wrist-roll inversion for hardware (index 4): `hardware_angles[4] = 180 - clamped[4]`
(lines 96–97).  The transmitted packet is built from these angles. -/
def hardwareAngles (clamped : List ℤ) : List ℤ :=
  mapJoint (fun i v => if i = 4 then 180 - v else v) 0 clamped

/-- `RobotArm.move_to` in simulation mode: `none` models `return False`
(arity failure); `some (packet, current)` models success, where `packet`
is the transmitted/simulated pose and `current` the stored USER pose. -/
def moveTo (angles : List ℚ) : Option (List ℤ × List ℤ) :=
  if angles.length ≠ 6 then none
  else
    let clamped := clampPose angles
    some (hardwareAngles clamped, clamped)

/-- One step of the `for i in range(6)` loop of `move_to_sequenced`
(lines 187–211): set joint `i` of the current pose to the pre-clamped
target, skip when already within 1°, otherwise perform the move. -/
def seqLoop (cur : List ℤ) (ct : List ℤ) : List ℕ → Option (List ℤ)
  | [] => some cur
  | i :: rest =>
    if (cur.getD i 0 - ct.getD i 0).natAbs < 1 then seqLoop cur ct rest
    else
      let next := cur.set i (ct.getD i 0)
      match moveTo (next.map fun z => (z : ℚ)) with
      | none => none
      | some (_, cur2) => seqLoop cur2 ct rest

/-- `RobotArm.move_to_sequenced`: arity check, 0–180 clamp of the target,
then one single-joint `move_to` per servo, bottom to top. -/
def moveToSequenced (cur : List ℤ) (target : List ℚ) : Option (List ℤ) :=
  if target.length ≠ 6 then none
  else seqLoop cur (target.map clamp180) (List.range 6)

/-- A stored pose is valid when every joint is inside its declared range:
0–180 everywhere, elbow (index 2) at most 150, gripper (index 5) in
[120,170].  Every pose `move_to` ever stores satisfies this. -/
def ValidPose (p : List ℤ) : Prop :=
  p.length = 6 ∧
  (∀ v ∈ p, 0 ≤ v ∧ v ≤ 180) ∧
  p.getD 2 0 ≤ 150 ∧
  120 ≤ p.getD 5 0 ∧ p.getD 5 0 ≤ 170

theorem clamp180_bounds (q : ℚ) : 0 ≤ clamp180 q ∧ clamp180 q ≤ 180 := by
  unfold clamp180; omega

theorem clamp180_int_of_range {v : ℤ} (h0 : 0 ≤ v) (h1 : v ≤ 180) :
    clamp180 (v : ℚ) = v := by
  unfold clamp180; rw [pyInt_intCast]; omega

theorem elbowClamp_of_le {v : ℤ} (h : v ≤ 150) : elbowClamp v = v := by
  unfold elbowClamp; omega

theorem gripClamp_of_range {v : ℤ} (h0 : 120 ≤ v) (h1 : v ≤ 170) :
    gripClamp v = v := by
  unfold gripClamp; omega

theorem elbowClamp_bounds {v : ℤ} (h0 : 0 ≤ v) (h1 : v ≤ 180) :
    0 ≤ elbowClamp v ∧ elbowClamp v ≤ 150 := by
  unfold elbowClamp; omega

theorem gripClamp_bounds (v : ℤ) : 120 ≤ gripClamp v ∧ gripClamp v ≤ 170 := by
  unfold gripClamp; omega

theorem exists_sextuple {α : Type} {l : List α} (h : l.length = 6) :
    ∃ a b c d e f, l = [a, b, c, d, e, f] := by
  rcases l with _ | ⟨a, _ | ⟨b, _ | ⟨c, _ | ⟨d, _ | ⟨e, _ | ⟨f, rest⟩⟩⟩⟩⟩⟩ <;>
    simp only [List.length_cons, List.length_nil] at h <;> try omega
  have hr : rest = [] := List.length_eq_zero.mp (by omega)
  exact ⟨a, b, c, d, e, f, by rw [hr]⟩

theorem clampPose_sextuple (a b c d e f : ℚ) :
    clampPose [a, b, c, d, e, f] =
      [clamp180 a, clamp180 b, elbowClamp (clamp180 c),
       clamp180 d, clamp180 e, gripClamp (clamp180 f)] := by
  simp [clampPose, mapJoint]

theorem hardwareAngles_sextuple (a b c d e f : ℤ) :
    hardwareAngles [a, b, c, d, e, f] = [a, b, c, d, 180 - e, f] := by
  simp [hardwareAngles, mapJoint]

/-- C1: every pose `move_to` transmits (or simulates) is the clamped pose:
the packet is built from `clampPose` (clamping precedes transmission),
every transmitted joint lies in [0,180], the elbow (index 2) is at most
150, and the gripper (index 5) lies in [120,170]. -/
theorem moveTo_transmits_clamped (angles : List ℚ) (h : angles.length = 6) :
    moveTo angles = some (hardwareAngles (clampPose angles), clampPose angles) ∧
    (∀ v ∈ hardwareAngles (clampPose angles), 0 ≤ v ∧ v ≤ 180) ∧
    (hardwareAngles (clampPose angles)).getD 2 0 ≤ 150 ∧
    120 ≤ (hardwareAngles (clampPose angles)).getD 5 0 ∧
    (hardwareAngles (clampPose angles)).getD 5 0 ≤ 170 := by
  obtain ⟨a, b, c, d, e, f, rfl⟩ := exists_sextuple h
  rw [clampPose_sextuple, hardwareAngles_sextuple]
  refine ⟨by simp [moveTo, clampPose_sextuple, hardwareAngles_sextuple], ?_, ?_, ?_, ?_⟩
  · intro v hv
    simp only [List.mem_cons, List.not_mem_nil, or_false] at hv
    have ha := clamp180_bounds a
    have hb := clamp180_bounds b
    have hc := elbowClamp_bounds (clamp180_bounds c).1 (clamp180_bounds c).2
    have hd := clamp180_bounds d
    have he := clamp180_bounds e
    have hf := gripClamp_bounds (clamp180 f)
    rcases hv with rfl | rfl | rfl | rfl | rfl | rfl <;> omega
  · exact (elbowClamp_bounds (clamp180_bounds c).1 (clamp180_bounds c).2).2
  · exact (gripClamp_bounds (clamp180 f)).1
  · exact (gripClamp_bounds (clamp180 f)).2

/-- Witness for C1 at the concrete request [30, 45, 160, 90, 90, 50]. -/
theorem moveTo_transmits_clamped_witness :
    moveTo [30, 45, 160, 90, 90, 50] =
      some (hardwareAngles (clampPose [30, 45, 160, 90, 90, 50]),
            clampPose [30, 45, 160, 90, 90, 50]) ∧
    (∀ v ∈ hardwareAngles (clampPose [30, 45, 160, 90, 90, 50]), 0 ≤ v ∧ v ≤ 180) ∧
    (hardwareAngles (clampPose [30, 45, 160, 90, 90, 50])).getD 2 0 ≤ 150 ∧
    120 ≤ (hardwareAngles (clampPose [30, 45, 160, 90, 90, 50])).getD 5 0 ∧
    (hardwareAngles (clampPose [30, 45, 160, 90, 90, 50])).getD 5 0 ≤ 170 :=
  moveTo_transmits_clamped [30, 45, 160, 90, 90, 50] (by decide)

/-- C8: from any valid starting pose, for any 6-element target,
`move_to_sequenced` succeeds (each intermediate single-joint move is a
simulated `move_to`, which always succeeds) and the final stored pose is
exactly the clamp of the target into the declared joint ranges. -/
theorem moveToSequenced_reaches_clamped_target
    (cur : List ℤ) (target : List ℚ) (hv : ValidPose cur)
    (ht : target.length = 6) :
    moveToSequenced cur target = some (clampPose target) := by
  obtain ⟨hlen, hmem, h2, h5a, h5b⟩ := hv
  obtain ⟨a, b, c, d, e, f, rfl⟩ := exists_sextuple hlen
  obtain ⟨t0, t1, t2, t3, t4, t5, rfl⟩ := exists_sextuple ht
  have ha := hmem a (by simp)
  have hb := hmem b (by simp)
  have hcm := hmem c (by simp)
  have hd := hmem d (by simp)
  have he := hmem e (by simp)
  have hfm := hmem f (by simp)
  have hc2 : c ≤ 150 := by simpa using h2
  have hf5a : 120 ≤ f := by simpa using h5a
  have hf5b : f ≤ 170 := by simpa using h5b
  have hu0 := clamp180_bounds t0
  have hu1 := clamp180_bounds t1
  have hu2 := clamp180_bounds t2
  have hu3 := clamp180_bounds t3
  have hu4 := clamp180_bounds t4
  have hu5 := clamp180_bounds t5
  set u0 := clamp180 t0 with hdef0
  set u1 := clamp180 t1 with hdef1
  set u2 := clamp180 t2 with hdef2
  set u3 := clamp180 t3 with hdef3
  set u4 := clamp180 t4 with hdef4
  set u5 := clamp180 t5 with hdef5
  have he2 := elbowClamp_bounds hu2.1 hu2.2
  have hg5 := gripClamp_bounds u5
  have step0 : ∀ rest, seqLoop [a, b, c, d, e, f] [u0, u1, u2, u3, u4, u5] (0 :: rest) =
      seqLoop [u0, b, c, d, e, f] [u0, u1, u2, u3, u4, u5] rest := by
    intro rest
    simp only [seqLoop, List.getD_cons_zero]
    by_cases hs : (a - u0).natAbs < 1
    · have : a = u0 := by omega
      rw [if_pos hs, this]
    · rw [if_neg hs]
      simp only [List.set, List.map, moveTo, List.length, if_neg]
      rw [clampPose_sextuple,
        clamp180_int_of_range hu0.1 hu0.2,
        clamp180_int_of_range hb.1 hb.2,
        clamp180_int_of_range hcm.1 hcm.2, elbowClamp_of_le hc2,
        clamp180_int_of_range hd.1 hd.2,
        clamp180_int_of_range he.1 he.2,
        clamp180_int_of_range hfm.1 hfm.2, gripClamp_of_range hf5a hf5b]
      simp
  have step1 : ∀ rest, seqLoop [u0, b, c, d, e, f] [u0, u1, u2, u3, u4, u5] (1 :: rest) =
      seqLoop [u0, u1, c, d, e, f] [u0, u1, u2, u3, u4, u5] rest := by
    intro rest
    simp only [seqLoop, List.getD_cons_zero, List.getD_cons_succ]
    by_cases hs : (b - u1).natAbs < 1
    · have : b = u1 := by omega
      rw [if_pos hs, this]
    · rw [if_neg hs]
      simp only [List.set, List.map, moveTo, List.length, if_neg]
      rw [clampPose_sextuple,
        clamp180_int_of_range hu0.1 hu0.2,
        clamp180_int_of_range hu1.1 hu1.2,
        clamp180_int_of_range hcm.1 hcm.2, elbowClamp_of_le hc2,
        clamp180_int_of_range hd.1 hd.2,
        clamp180_int_of_range he.1 he.2,
        clamp180_int_of_range hfm.1 hfm.2, gripClamp_of_range hf5a hf5b]
      simp
  have step2 : ∀ rest, seqLoop [u0, u1, c, d, e, f] [u0, u1, u2, u3, u4, u5] (2 :: rest) =
      seqLoop [u0, u1, elbowClamp u2, d, e, f] [u0, u1, u2, u3, u4, u5] rest := by
    intro rest
    simp only [seqLoop, List.getD_cons_zero, List.getD_cons_succ]
    by_cases hs : (c - u2).natAbs < 1
    · have hcu : c = u2 := by omega
      rw [if_pos hs, hcu, elbowClamp_of_le (hcu ▸ hc2)]
    · rw [if_neg hs]
      simp only [List.set, List.map, moveTo, List.length, if_neg]
      rw [clampPose_sextuple,
        clamp180_int_of_range hu0.1 hu0.2,
        clamp180_int_of_range hu1.1 hu1.2,
        clamp180_int_of_range hu2.1 hu2.2,
        clamp180_int_of_range hd.1 hd.2,
        clamp180_int_of_range he.1 he.2,
        clamp180_int_of_range hfm.1 hfm.2, gripClamp_of_range hf5a hf5b]
      simp
  have step3 : ∀ rest, seqLoop [u0, u1, elbowClamp u2, d, e, f] [u0, u1, u2, u3, u4, u5] (3 :: rest) =
      seqLoop [u0, u1, elbowClamp u2, u3, e, f] [u0, u1, u2, u3, u4, u5] rest := by
    intro rest
    simp only [seqLoop, List.getD_cons_zero, List.getD_cons_succ]
    by_cases hs : (d - u3).natAbs < 1
    · have : d = u3 := by omega
      rw [if_pos hs, this]
    · rw [if_neg hs]
      simp only [List.set, List.map, moveTo, List.length, if_neg]
      rw [clampPose_sextuple,
        clamp180_int_of_range hu0.1 hu0.2,
        clamp180_int_of_range hu1.1 hu1.2,
        clamp180_int_of_range he2.1 (le_trans he2.2 (by omega)),
        elbowClamp_of_le (le_trans he2.2 (by omega)),
        clamp180_int_of_range hu3.1 hu3.2,
        clamp180_int_of_range he.1 he.2,
        clamp180_int_of_range hfm.1 hfm.2, gripClamp_of_range hf5a hf5b]
      simp
  have step4 : ∀ rest, seqLoop [u0, u1, elbowClamp u2, u3, e, f] [u0, u1, u2, u3, u4, u5] (4 :: rest) =
      seqLoop [u0, u1, elbowClamp u2, u3, u4, f] [u0, u1, u2, u3, u4, u5] rest := by
    intro rest
    simp only [seqLoop, List.getD_cons_zero, List.getD_cons_succ]
    by_cases hs : (e - u4).natAbs < 1
    · have : e = u4 := by omega
      rw [if_pos hs, this]
    · rw [if_neg hs]
      simp only [List.set, List.map, moveTo, List.length, if_neg]
      rw [clampPose_sextuple,
        clamp180_int_of_range hu0.1 hu0.2,
        clamp180_int_of_range hu1.1 hu1.2,
        clamp180_int_of_range he2.1 (le_trans he2.2 (by omega)),
        elbowClamp_of_le (le_trans he2.2 (by omega)),
        clamp180_int_of_range hu3.1 hu3.2,
        clamp180_int_of_range hu4.1 hu4.2,
        clamp180_int_of_range hfm.1 hfm.2, gripClamp_of_range hf5a hf5b]
      simp
  have step5 : ∀ rest, seqLoop [u0, u1, elbowClamp u2, u3, u4, f] [u0, u1, u2, u3, u4, u5] (5 :: rest) =
      seqLoop [u0, u1, elbowClamp u2, u3, u4, gripClamp u5] [u0, u1, u2, u3, u4, u5] rest := by
    intro rest
    simp only [seqLoop, List.getD_cons_zero, List.getD_cons_succ]
    by_cases hs : (f - u5).natAbs < 1
    · have hfu : f = u5 := by omega
      rw [if_pos hs, hfu, gripClamp_of_range (hfu ▸ hf5a) (hfu ▸ hf5b)]
    · rw [if_neg hs]
      simp only [List.set, List.map, moveTo, List.length, if_neg]
      rw [clampPose_sextuple,
        clamp180_int_of_range hu0.1 hu0.2,
        clamp180_int_of_range hu1.1 hu1.2,
        clamp180_int_of_range he2.1 (le_trans he2.2 (by omega)),
        elbowClamp_of_le (le_trans he2.2 (by omega)),
        clamp180_int_of_range hu3.1 hu3.2,
        clamp180_int_of_range hu4.1 hu4.2,
        clamp180_int_of_range hu5.1 hu5.2]
      simp
  have hrange : List.range 6 = [0, 1, 2, 3, 4, 5] := by decide
  calc moveToSequenced [a, b, c, d, e, f] [t0, t1, t2, t3, t4, t5]
      = seqLoop [a, b, c, d, e, f] [u0, u1, u2, u3, u4, u5] [0, 1, 2, 3, 4, 5] := by
        simp [moveToSequenced, hrange, hdef0, hdef1, hdef2, hdef3, hdef4, hdef5]
    _ = some [u0, u1, elbowClamp u2, u3, u4, gripClamp u5] := by
        rw [step0, step1, step2, step3, step4, step5]
        rfl
    _ = some (clampPose [t0, t1, t2, t3, t4, t5]) := by
        rw [clampPose_sextuple]

/-- Witness for C8: from the neutral pose, a sequenced move to
[200, -5, 160, 90, 90, 50] ends at its declared-range clamp. -/
theorem moveToSequenced_reaches_clamped_target_witness :
    moveToSequenced [0, 130, 130, 90, 12, 170] [200, -5, 160, 90, 90, 50] =
      some (clampPose [200, -5, 160, 90, 90, 50]) :=
  moveToSequenced_reaches_clamped_target [0, 130, 130, 90, 12, 170]
    [200, -5, 160, 90, 90, 50]
    (by refine ⟨by decide, ?_, by decide, by decide, by decide⟩
        intro v hv
        fin_cases hv <;> omega)
    (by decide)

/-- C3 counterexample: `move_to([200,-5,90,90,90,90])` does NOT leave the
current pose at `[180,0,90,90,90,90]` — the gripper safety clamp raises
index 5 from 90 to 120. -/
theorem moveTo_scenarioC_not_claimed_pose :
    (moveTo [200, -5, 90, 90, 90, 90]).map Prod.snd ≠
      some [180, 0, 90, 90, 90, 90] := by
  decide

/-- C3 (amended): `move_to([200,-5,90,90,90,90])` succeeds and leaves the
stored current pose at `[180,0,90,90,90,120]`: joints clamped into
[0,180] and the gripper further clamped into its [120,170] safety range. -/
theorem moveTo_scenarioC_clamped_pose :
    moveTo [200, -5, 90, 90, 90, 90] =
      some ([180, 0, 90, 90, 90, 120], [180, 0, 90, 90, 90, 120]) := by
  decide

/-! ## Hybrid perception coordinator: `HybridTracker` (hybrid_tracker.py)

`get_target` runs YOLO first, filtered to an optional target class,
keeping the highest-confidence candidate; if one is found the CSRT
tracker is re-created and re-seeded from that box and the result is
tagged `'YOLO'`; otherwise, if tracking is active, the tracker is
continued (`'TRACKER'` on success, deactivation on failure); otherwise
`'NONE'`.  The CSRT tracker itself is a black box: its per-frame update
is an oracle input `upd : Option (ℚ × ℚ × ℚ × ℚ)`. -/

/-- `HybridTracker._clamp_bbox`: clamp the top-left corner into the frame
and the size into what remains, then truncate to `int`. -/
def clampBbox (bbox : ℚ × ℚ × ℚ × ℚ) (hImg wImg : ℤ) : ℤ × ℤ × ℤ × ℤ :=
  let x := max 0 (min bbox.1 ((wImg : ℚ) - 1))
  let y := max 0 (min bbox.2.1 ((hImg : ℚ) - 1))
  let w := max 1 (min bbox.2.2.1 ((wImg : ℚ) - x))
  let h := max 1 (min bbox.2.2.2 ((hImg : ℚ) - y))
  (pyInt x, pyInt y, pyInt w, pyInt h)

/-- One raw YOLO candidate: class name, confidence, and `xyxy` corners. -/
structure Det where
  clsName : String
  conf : ℚ
  x1 : ℚ
  y1 : ℚ
  x2 : ℚ
  y2 : ℚ

/-- `(x1, y1, w, h)` as parsed in `get_target` (lines 79–87):
corners are truncated to `int` first. -/
def detBox (d : Det) : ℤ × ℤ × ℤ × ℤ :=
  (pyInt d.x1, pyInt d.y1, pyInt d.x2 - pyInt d.x1, pyInt d.y2 - pyInt d.y1)

/-- The class filter of `get_target` (line 75): skip a candidate iff a
target class is set and the lowered names differ. -/
def matchesTarget (target : Option String) (d : Det) : Bool :=
  match target with
  | none => true
  | some t => d.clsName.toLower == t.toLower

/-- The best-candidate loop of `get_target` (lines 68–87): keep the
strictly highest confidence among the class-filtered candidates
(accumulator `(best_det, max_conf)`, initially `(none, 0)`). -/
def pickBest (target : Option String) :
    List Det → Option (ℤ × ℤ × ℤ × ℤ) × ℚ → Option (ℤ × ℤ × ℤ × ℤ) × ℚ
  | [], acc => acc
  | d :: rest, acc =>
    if ¬ matchesTarget target d then pickBest target rest acc
    else if d.conf > acc.2 then pickBest target rest (some (detBox d), d.conf)
    else pickBest target rest acc

/-- Tracker-side state of `HybridTracker`: `tracking_active`, the last
box, and the box the CSRT tracker was last initialised from. -/
structure TState where
  active : Bool
  lastBbox : Option (ℤ × ℤ × ℤ × ℤ)
  seedBox : Option (ℤ × ℤ × ℤ × ℤ)

/-- The dict returned by `get_target`. -/
structure GTResult where
  center : Option (ℤ × ℤ)
  bbox : Option (ℤ × ℤ × ℤ × ℤ)
  source : String

/-- `HybridTracker.get_target`: YOLO detection, handover logic, CSRT
fallback.  `upd` is the oracle outcome of `self.tracker.update(frame)`. -/
def getTarget (st : TState) (hImg wImg : ℤ) (dets : List Det)
    (target : Option String) (upd : Option (ℚ × ℚ × ℚ × ℚ)) :
    GTResult × TState :=
  match (pickBest target dets (none, 0)).1 with
  | some best =>
    let bb := clampBbox ((best.1 : ℚ), (best.2.1 : ℚ), (best.2.2.1 : ℚ), (best.2.2.2 : ℚ)) hImg wImg
    let cx := bb.1 + bb.2.2.1.ediv 2
    let cy := bb.2.1 + bb.2.2.2.ediv 2
    (⟨some (cx, cy), some bb, "YOLO"⟩,
     ⟨true, some bb, some bb⟩)
  | none =>
    if st.active then
      match upd with
      | some qb =>
        let bb := clampBbox qb hImg wImg
        let cx := bb.1 + bb.2.2.1.ediv 2
        let cy := bb.2.1 + bb.2.2.2.ediv 2
        (⟨some (cx, cy), some bb, "TRACKER"⟩, ⟨st.active, some bb, st.seedBox⟩)
      | none => (⟨none, none, "NONE"⟩, ⟨false, st.lastBbox, st.seedBox⟩)
    else (⟨none, none, "NONE"⟩, st)

theorem floor_axis_bounds (a w : ℚ) (n : ℤ) (hn : 0 < n) :
    0 ≤ ⌊max 0 (min a ((n : ℚ) - 1))⌋ ∧
    ⌊max 0 (min a ((n : ℚ) - 1))⌋ ≤ n - 1 ∧
    1 ≤ ⌊max 1 (min w ((n : ℚ) - max 0 (min a ((n : ℚ) - 1))))⌋ ∧
    ⌊max 1 (min w ((n : ℚ) - max 0 (min a ((n : ℚ) - 1))))⌋ ≤
      n - ⌊max 0 (min a ((n : ℚ) - 1))⌋ := by
  set q : ℚ := max 0 (min a ((n : ℚ) - 1)) with hq
  set s : ℚ := max 1 (min w ((n : ℚ) - q)) with hs
  have hn1 : (1 : ℚ) ≤ (n : ℚ) := by exact_mod_cast hn
  have hq0 : 0 ≤ q := le_max_left _ _
  have hq1 : q ≤ (n : ℚ) - 1 := max_le (by linarith) (min_le_right _ _)
  have hfq0 : 0 ≤ ⌊q⌋ := Int.floor_nonneg.mpr hq0
  have hfq1 : ⌊q⌋ ≤ n - 1 := by
    have : ⌊q⌋ ≤ ⌊(n : ℚ) - 1⌋ := Int.floor_le_floor hq1
    have h2 : ((n : ℚ) - 1) = (((n - 1 : ℤ) : ℚ)) := by push_cast; ring
    rw [h2, Int.floor_intCast] at this
    exact this
  have hs1 : (1 : ℚ) ≤ s := le_max_left _ _
  have hs2 : s ≤ (n : ℚ) - q := max_le (by linarith) (min_le_right _ _)
  have hfs1 : 1 ≤ ⌊s⌋ := Int.le_floor.mpr (by exact_mod_cast hs1)
  have hfs2 : ⌊s⌋ ≤ n - ⌊q⌋ := by
    have hfloor : (⌊s⌋ : ℚ) ≤ (n : ℚ) - (⌊q⌋ : ℚ) := by
      have h1 : (⌊s⌋ : ℚ) ≤ s := Int.floor_le s
      have h2 : (⌊q⌋ : ℚ) ≤ q := Int.floor_le q
      linarith
    exact_mod_cast hfloor
  exact ⟨hfq0, hfq1, hfs1, hfs2⟩

theorem clampBbox_bounds (bbox : ℚ × ℚ × ℚ × ℚ) (hImg wImg : ℤ)
    (hh : 0 < hImg) (hw : 0 < wImg) :
    0 ≤ (clampBbox bbox hImg wImg).1 ∧
    (clampBbox bbox hImg wImg).1 ≤ wImg - 1 ∧
    0 ≤ (clampBbox bbox hImg wImg).2.1 ∧
    (clampBbox bbox hImg wImg).2.1 ≤ hImg - 1 ∧
    1 ≤ (clampBbox bbox hImg wImg).2.2.1 ∧
    (clampBbox bbox hImg wImg).2.2.1 ≤ wImg - (clampBbox bbox hImg wImg).1 ∧
    1 ≤ (clampBbox bbox hImg wImg).2.2.2 ∧
    (clampBbox bbox hImg wImg).2.2.2 ≤ hImg - (clampBbox bbox hImg wImg).2.1 := by
  obtain ⟨hx0, hx1, hw1, hw2⟩ := floor_axis_bounds bbox.1 bbox.2.2.1 wImg hw
  obtain ⟨hy0, hy1, hh1, hh2⟩ := floor_axis_bounds bbox.2.1 bbox.2.2.2 hImg hh
  have ex : ∀ r : ℚ, 0 ≤ r → pyInt r = ⌊r⌋ := fun r hr => pyInt_of_nonneg hr
  simp only [clampBbox]
  rw [ex _ (le_max_left _ _), ex _ (le_max_left _ _),
    ex _ (le_trans zero_le_one (le_max_left _ _)),
    ex _ (le_trans zero_le_one (le_max_left _ _))]
  exact ⟨hx0, hx1, hy0, hy1, hw1, hw2, hh1, hh2⟩

/-- C10: `_clamp_bbox` keeps the top-left corner inside the frame and the
size positive and inside the remaining frame; consequently every box
`get_target` returns (detector or tracker branch) lies entirely within
the frame and has strictly positive area. -/
theorem clampBbox_and_getTarget_in_frame (hImg wImg : ℤ)
    (hh : 0 < hImg) (hw : 0 < wImg) :
    (∀ bbox : ℚ × ℚ × ℚ × ℚ,
      0 ≤ (clampBbox bbox hImg wImg).1 ∧
      (clampBbox bbox hImg wImg).1 ≤ wImg - 1 ∧
      0 ≤ (clampBbox bbox hImg wImg).2.1 ∧
      (clampBbox bbox hImg wImg).2.1 ≤ hImg - 1 ∧
      1 ≤ (clampBbox bbox hImg wImg).2.2.1 ∧
      (clampBbox bbox hImg wImg).2.2.1 ≤ wImg - (clampBbox bbox hImg wImg).1 ∧
      1 ≤ (clampBbox bbox hImg wImg).2.2.2 ∧
      (clampBbox bbox hImg wImg).2.2.2 ≤ hImg - (clampBbox bbox hImg wImg).2.1) ∧
    (∀ (st : TState) (dets : List Det) (target : Option String)
      (upd : Option (ℚ × ℚ × ℚ × ℚ)),
      (getTarget st hImg wImg dets target upd).1.source ≠ "NONE" →
      ∃ x y w h, (getTarget st hImg wImg dets target upd).1.bbox = some (x, y, w, h) ∧
        0 ≤ x ∧ 0 ≤ y ∧ 1 ≤ w ∧ 1 ≤ h ∧ x + w ≤ wImg ∧ y + h ≤ hImg) := by
  refine ⟨fun bbox => clampBbox_bounds bbox hImg wImg hh hw, ?_⟩
  intro st dets target upd hsrc
  have inframe : ∀ bbox : ℚ × ℚ × ℚ × ℚ,
      ∃ x y w h, (clampBbox bbox hImg wImg) = (x, y, w, h) ∧
        0 ≤ x ∧ 0 ≤ y ∧ 1 ≤ w ∧ 1 ≤ h ∧ x + w ≤ wImg ∧ y + h ≤ hImg := by
    intro bbox
    obtain ⟨b1, b2, b3, b4, b5, b6, b7, b8⟩ := clampBbox_bounds bbox hImg wImg hh hw
    exact ⟨(clampBbox bbox hImg wImg).1, (clampBbox bbox hImg wImg).2.1,
      (clampBbox bbox hImg wImg).2.2.1, (clampBbox bbox hImg wImg).2.2.2,
      rfl, b1, b3, b5, b7, by omega, by omega⟩
  unfold getTarget at hsrc ⊢
  cases hpb : (pickBest target dets (none, 0)).1 with
  | some best =>
    simp only [hpb]
    obtain ⟨x, y, w, h, heq, hb⟩ := inframe
      ((best.1 : ℚ), (best.2.1 : ℚ), (best.2.2.1 : ℚ), (best.2.2.2 : ℚ))
    exact ⟨x, y, w, h, by simp [heq], hb.1, hb.2.1, hb.2.2.1, hb.2.2.2.1,
      hb.2.2.2.2.1, hb.2.2.2.2.2⟩
  | none =>
    simp only [hpb] at hsrc ⊢
    by_cases hact : st.active
    · cases upd with
      | some qb =>
        simp only [hact, if_true]
        obtain ⟨x, y, w, h, heq, hb⟩ := inframe qb
        exact ⟨x, y, w, h, by simp [heq], hb.1, hb.2.1, hb.2.2.1, hb.2.2.2.1,
          hb.2.2.2.2.1, hb.2.2.2.2.2⟩
      | none => simp [hact] at hsrc
    · simp [hact] at hsrc

/-- Witness for C10 on a 640x480 frame with an out-of-range box. -/
theorem clampBbox_and_getTarget_in_frame_witness :
    0 ≤ (clampBbox (700, -3, 50, 1000) 480 640).1 ∧
    (clampBbox (700, -3, 50, 1000) 480 640).1 ≤ 640 - 1 ∧
    0 ≤ (clampBbox (700, -3, 50, 1000) 480 640).2.1 ∧
    (clampBbox (700, -3, 50, 1000) 480 640).2.1 ≤ 480 - 1 ∧
    1 ≤ (clampBbox (700, -3, 50, 1000) 480 640).2.2.1 ∧
    (clampBbox (700, -3, 50, 1000) 480 640).2.2.1 ≤
      640 - (clampBbox (700, -3, 50, 1000) 480 640).1 ∧
    1 ≤ (clampBbox (700, -3, 50, 1000) 480 640).2.2.2 ∧
    (clampBbox (700, -3, 50, 1000) 480 640).2.2.2 ≤
      480 - (clampBbox (700, -3, 50, 1000) 480 640).2.1 :=
  (clampBbox_and_getTarget_in_frame 480 640 (by decide) (by decide)).1 (700, -3, 50, 1000)

theorem pickBest_some_mono (target : Option String) (dets : List Det)
    (acc : Option (ℤ × ℤ × ℤ × ℤ) × ℚ) (h : acc.1.isSome) :
    (pickBest target dets acc).1.isSome := by
  induction dets generalizing acc with
  | nil => exact h
  | cons d rest ih =>
    unfold pickBest
    by_cases hm : matchesTarget target d
    · by_cases hc : d.conf > acc.2
      · simp only [hm, hc, not_true, if_false, if_true]
        exact ih _ (by simp)
      · simp only [hm, hc, not_true, if_false]
        exact ih _ h
    · simp only [hm, not_false_iff, if_true]
      exact ih _ h

theorem pickBest_isSome (target : Option String) (dets : List Det)
    (acc : Option (ℤ × ℤ × ℤ × ℤ) × ℚ)
    (h : ∃ d ∈ dets, matchesTarget target d = true ∧ acc.2 < d.conf) :
    (pickBest target dets acc).1.isSome := by
  induction dets generalizing acc with
  | nil => simp at h
  | cons d rest ih =>
    obtain ⟨d', hmem, hm', hc'⟩ := h
    unfold pickBest
    by_cases hm : matchesTarget target d
    · by_cases hc : d.conf > acc.2
      · simp only [hm, hc, not_true, if_false, if_true]
        exact pickBest_some_mono target rest _ (by simp)
      · simp only [hm, hc, not_true, if_false]
        rcases List.mem_cons.mp hmem with rfl | hmem'
        · exact absurd hc' (by simpa using hc)
        · exact ih _ ⟨d', hmem', hm', hc'⟩
    · simp only [hm, not_false_iff, if_true]
      rcases List.mem_cons.mp hmem with rfl | hmem'
      · exact absurd hm' (by simpa using hm)
      · exact ih _ ⟨d', hmem', hm', hc'⟩

/-- C2: whenever YOLO finds a candidate matching the target class (with
positive confidence, as guaranteed by the 0.3 inference threshold),
`get_target` returns source `'YOLO'` and re-seeds the tracker from that
detection's clamped box, regardless of the previous tracker state. -/
theorem getTarget_detector_overrides (st : TState) (hImg wImg : ℤ)
    (dets : List Det) (target : Option String) (upd : Option (ℚ × ℚ × ℚ × ℚ))
    (h : ∃ d ∈ dets, matchesTarget target d = true ∧ 0 < d.conf) :
    (getTarget st hImg wImg dets target upd).1.source = "YOLO" ∧
    (getTarget st hImg wImg dets target upd).2.active = true ∧
    (getTarget st hImg wImg dets target upd).2.seedBox =
      (getTarget st hImg wImg dets target upd).1.bbox := by
  have hs : (pickBest target dets (none, 0)).1.isSome :=
    pickBest_isSome target dets (none, 0) h
  obtain ⟨best, hb⟩ := Option.isSome_iff_exists.mp hs
  unfold getTarget
  simp [hb]

/-- Witness for C2: an active tracker with stale state is overridden by a
fresh matching detection. -/
theorem getTarget_detector_overrides_witness :
    (getTarget ⟨true, some (5, 5, 5, 5), some (5, 5, 5, 5)⟩ 480 640
      [⟨"bottle", 9/10, 10, 20, 110, 220⟩] none none).1.source = "YOLO" ∧
    (getTarget ⟨true, some (5, 5, 5, 5), some (5, 5, 5, 5)⟩ 480 640
      [⟨"bottle", 9/10, 10, 20, 110, 220⟩] none none).2.active = true ∧
    (getTarget ⟨true, some (5, 5, 5, 5), some (5, 5, 5, 5)⟩ 480 640
      [⟨"bottle", 9/10, 10, 20, 110, 220⟩] none none).2.seedBox =
    (getTarget ⟨true, some (5, 5, 5, 5), some (5, 5, 5, 5)⟩ 480 640
      [⟨"bottle", 9/10, 10, 20, 110, 220⟩] none none).1.bbox :=
  getTarget_detector_overrides ⟨true, some (5, 5, 5, 5), some (5, 5, 5, 5)⟩ 480 640
    [⟨"bottle", 9/10, 10, 20, 110, 220⟩] none none
    ⟨⟨"bottle", 9/10, 10, 20, 110, 220⟩, by simp, rfl, by norm_num⟩

/-! ## Camera inference cycle: `VideoCamera.find_objects_yolo` (camera.py)

The handover threshold: hybrid (YOLO + CSRT) mode is entered only while
`last_detection_distance < 15.0`; otherwise the cycle runs the plain
YOLO detector whose published records are always tagged `'YOLO'` and an
empty detector result publishes an empty list. -/

/-- `GRIPPER_LENGTH` from `brain/visual_ik_solver.py` (12.0 cm). -/
def gripperLength : ℚ := 12

/-- The hybrid handover threshold of `find_objects_yolo` (line 442). -/
def nearThreshold : ℚ := 15

/-- One record from `yolo_detector.detect_objects` as used by the
standard branch (lines 519–581): name, corners, and the pinhole distance
estimate (`-1` when the object width is unknown). -/
structure StdDet where
  objectName : String
  x1 : ℤ
  y1 : ℤ
  x2 : ℤ
  y2 : ℤ
  distEst : ℚ

/-- One published detection record (the fields C7 depends on). -/
structure PubDet where
  objectName : String
  source : String
  distanceCm : ℚ
  errorX : ℤ
  errorY : ℤ

/-- Distance of a standard-branch record: `-1` stays unknown, otherwise
the estimate is shifted back by the gripper length and floored at 0. -/
def stdDistance (d : StdDet) : ℚ :=
  if d.distEst = -1 then -1 else max 0 (d.distEst - gripperLength)

/-- Standard-branch publication (lines 527–581): center from the bbox
(target point 1/4 from the top), pixel errors, source `'YOLO'`. -/
def stdPub (frameCx frameCy : ℤ) (d : StdDet) : PubDet :=
  let cx := (d.x1 + d.x2).ediv 2
  let cy := pyInt ((d.y1 : ℚ) + ((d.y2 - d.y1 : ℤ) : ℚ) * (1/4))
  ⟨d.objectName, "YOLO", stdDistance d, frameCx - cx, frameCy - cy⟩

/-- `VideoCamera.find_objects_yolo`, decision layer: at `lastDist < 15`
run the hybrid coordinator and publish its (possibly `'TRACKER'`) result
with a width-based distance; otherwise run the plain detector, filter by
target name, publish `'YOLO'` records, and track the last positive
distance.  Returns (published detections, new last distance, tracker state). -/
def findObjectsYolo (lastDist : ℚ) (st : TState) (hImg wImg : ℤ)
    (dets : List Det) (target : Option String) (upd : Option (ℚ × ℚ × ℚ × ℚ))
    (stdDets : List StdDet) (knownWidth : Option ℚ) (focal : ℚ) :
    List PubDet × ℚ × TState :=
  let frameCx := wImg.ediv 2
  let frameCy := hImg.ediv 2
  if lastDist < nearThreshold then
    let rs := getTarget st hImg wImg dets target upd
    if rs.1.source ≠ "NONE" then
      match rs.1.bbox, rs.1.center with
      | some (_, _, w, _), some (cx, cy) =>
        let dist := match knownWidth with
          | some rw => max 0 ((if 0 < w then rw * focal / (w : ℚ) else 999) - gripperLength)
          | none => lastDist
        ([⟨target.getD "bottle", rs.1.source, dist, frameCx - cx, frameCy - cy⟩],
         dist, rs.2)
      | _, _ => ([], lastDist, rs.2)
    else ([], lastDist, rs.2)
  else
    let filtered := match target with
      | some t => stdDets.filter fun (d : StdDet) => d.objectName.toLower == t
      | none => stdDets
    (filtered.map (stdPub frameCx frameCy),
     filtered.foldl (fun acc d => if 0 < stdDistance d then stdDistance d else acc) lastDist,
     st)

/-- C7: a published detection tagged `'TRACKER'` can only occur while the
last known distance is below the 15 cm near-threshold; at or above it,
an empty detector result publishes no detection instead of continuing
the tracker. -/
theorem trackerSource_only_near (lastDist : ℚ) (st : TState) (hImg wImg : ℤ)
    (dets : List Det) (target : Option String) (upd : Option (ℚ × ℚ × ℚ × ℚ))
    (stdDets : List StdDet) (knownWidth : Option ℚ) (focal : ℚ) :
    (∀ p ∈ (findObjectsYolo lastDist st hImg wImg dets target upd stdDets knownWidth focal).1,
      p.source = "TRACKER" → lastDist < nearThreshold) ∧
    (nearThreshold ≤ lastDist → stdDets = [] →
      (findObjectsYolo lastDist st hImg wImg dets target upd stdDets knownWidth focal).1 = []) := by
  by_cases hld : lastDist < nearThreshold
  · exact ⟨fun _ _ _ => hld, fun h _ => absurd hld (not_lt.mpr h)⟩
  · constructor
    · intro p hp htr
      unfold findObjectsYolo at hp
      rw [if_neg hld] at hp
      simp only [List.mem_map] at hp
      obtain ⟨d, _, rfl⟩ := hp
      exact absurd htr (by simp [stdPub])
    · intro _ hstd
      unfold findObjectsYolo
      rw [if_neg hld]
      subst hstd
      cases target <;> simp

/-- Witness for C7: at 20 cm with an empty detector result, nothing is
published. -/
theorem trackerSource_only_near_witness :
    (findObjectsYolo 20 ⟨false, none, none⟩ 480 640 [] none none [] none 1110).1 = [] :=
  (trackerSource_only_near 20 ⟨false, none, none⟩ 480 640 [] none none [] none 1110).2
    (by norm_num [nearThreshold]) rfl

/-! ## Visual-servoing controller: `VisualServoingAgent` (visual_servoing.py)

`_servoing_loop` runs one cycle per iteration: it reads
`camera.last_detection`; with no detection it sets `state = "SEARCHING"`
and sweeps the base; with a detection it counts consecutive centered
frames (|error_x| < 20) and, at `required_centered_frames = 3`, starts
the hybrid reach and returns; otherwise it sets `state = "ALIGNING"`.
The field `missed_frames` is initialised in `__init__` (line 46) and
never consulted: there is no lost-frame hysteresis before SEARCHING. -/

/-- Controller state fields mutated by one outer servoing cycle. -/
structure ServoState where
  state : String
  searchDir : ℤ
  base : ℚ
  centeredFrames : ℕ

/-- One outer cycle of `_servoing_loop` (lines 201–249) at detection
granularity: `det` is `error_x` of the first detection, or `none`. -/
def servoCycle (s : ServoState) (det : Option ℤ) : ServoState :=
  match det with
  | none =>
    let base1 := s.base + (s.searchDir : ℚ) * 1
    let atLimit := base1 ≤ 0 ∨ 180 ≤ base1
    { state := "SEARCHING",
      searchDir := if atLimit then -s.searchDir else s.searchDir,
      base := if atLimit then max 0 (min 180 base1) else base1,
      centeredFrames := s.centeredFrames }
  | some errorX =>
    let cf := if errorX.natAbs < 20 then s.centeredFrames + 1 else 0
    if 3 ≤ cf then { s with centeredFrames := cf }
    else { s with state := "ALIGNING", centeredFrames := cf }

/-- C5 (code evaluated at the failing input): one cycle after acquiring a
target, a single cycle with no detection already puts the controller
back in SEARCHING — `missed_frames` is never consulted, so there is no
"recently lost" grace period. -/
theorem servoCycle_reenters_searching_immediately :
    (servoCycle ⟨"SEARCHING", 1, 23, 0⟩ (some 0)).state = "ALIGNING" ∧
    (servoCycle (servoCycle ⟨"SEARCHING", 1, 23, 0⟩ (some 0)) none).state =
      "SEARCHING" := by
  constructor <;> rfl

/-- The centered-frame counter update of lines 235–239, folded over the
per-cycle `error_x` readings. -/
def alignCount (c : ℕ) : List ℤ → ℕ
  | [] => c
  | e :: rest => alignCount (if e.natAbs < 20 then c + 1 else 0) rest

/-- Cycle indices at which the ALIGNING → reach transition of lines
240–245 fires.  Reaching `required_centered_frames = 3` calls
`_hybrid_ml_reach` and then returns from `_servoing_loop`, so no later
cycle runs. -/
def alignFireEvents (c : ℕ) : List ℤ → List ℕ
  | [] => []
  | e :: rest =>
    let c1 := if e.natAbs < 20 then c + 1 else 0
    if 3 ≤ c1 then [0]
    else (alignFireEvents c1 rest).map (· + 1)

theorem alignFireEvents_window (a b c' : ℤ) (post : List ℤ)
    (ha : a.natAbs < 20) (hb : b.natAbs < 20) (hc : c'.natAbs < 20) :
    ∀ (pre : List ℤ) (c : ℕ),
    ∃ j ≤ pre.length + 2, alignFireEvents c (pre ++ a :: b :: c' :: post) = [j] := by
  intro pre
  induction pre with
  | nil =>
    intro c
    simp only [List.nil_append, alignFireEvents, ha, hb, hc, if_true]
    by_cases h1 : 3 ≤ c + 1
    · exact ⟨0, by omega, by simp [h1]⟩
    · by_cases h2 : 3 ≤ c + 1 + 1
      · exact ⟨1, by omega, by simp [h1, h2, alignFireEvents, hb]⟩
      · refine ⟨2, by omega, ?_⟩
        have h3 : 3 ≤ c + 1 + 1 + 1 := by omega
        simp [h1, h2, h3, alignFireEvents, hb, hc]
  | cons e pre ih =>
    intro c
    simp only [List.cons_append, alignFireEvents]
    by_cases h1 : 3 ≤ (if e.natAbs < 20 then c + 1 else 0)
    · exact ⟨0, by omega, by simp [h1]⟩
    · obtain ⟨j, hj, heq⟩ := ih (if e.natAbs < 20 then c + 1 else 0)
      refine ⟨j + 1, by simpa using Nat.add_le_add_right hj 1, ?_⟩
      simp [h1, heq]

theorem alignFireEvents_first (es : List ℤ) (c : ℕ) (j : ℕ)
    (h : alignFireEvents c es = [j]) :
    3 ≤ alignCount c (es.take (j + 1)) ∧
    ∀ i < j, alignCount c (es.take (i + 1)) < 3 := by
  induction es generalizing c j with
  | nil => simp [alignFireEvents] at h
  | cons e rest ih =>
    simp only [alignFireEvents] at h
    by_cases h1 : 3 ≤ (if e.natAbs < 20 then c + 1 else 0)
    · rw [if_pos h1] at h
      have hj : j = 0 := by simpa using (List.cons.injEq _ _ _ _).mp h |>.1.symm
      subst hj
      constructor
      · simpa [alignCount] using h1
      · intro i hi; omega
    · rw [if_neg h1] at h
      obtain ⟨j', hj', hmap⟩ : ∃ j', alignFireEvents (if e.natAbs < 20 then c + 1 else 0) rest = [j'] ∧ j = j' + 1 := by
        rcases hev : alignFireEvents (if e.natAbs < 20 then c + 1 else 0) rest with _ | ⟨x, tl⟩
        · rw [hev] at h; simp at h
        · rw [hev] at h
          rcases tl with _ | ⟨y, tl'⟩
          · simp at h
            exact ⟨x, rfl, h.symm⟩
          · simp at h
      obtain ⟨ih1, ih2⟩ := ih _ _ hj'
      subst hmap
      constructor
      · simpa [List.take, alignCount] using ih1
      · intro i hi
        cases i with
        | zero =>
          simpa [List.take, alignCount] using h1
        | succ i' =>
          have hi' : i' < j' := by omega
          simpa [List.take, alignCount] using ih2 i' hi'

/-- C6: whenever |error_x| stays below the 20 px deadzone for (at least)
3 consecutive ALIGNING cycles, the alignment → reach transition fires
exactly once: on the single cycle at which the consecutive-centered
count first reaches the threshold (no later than the end of the given
window), and it is never re-triggered afterwards. -/
theorem aligning_transition_fires_once (pre post : List ℤ) (a b c' : ℤ)
    (ha : a.natAbs < 20) (hb : b.natAbs < 20) (hc : c'.natAbs < 20) :
    ∃ j, alignFireEvents 0 (pre ++ a :: b :: c' :: post) = [j] ∧
      j ≤ pre.length + 2 ∧
      3 ≤ alignCount 0 ((pre ++ a :: b :: c' :: post).take (j + 1)) ∧
      ∀ i < j, alignCount 0 ((pre ++ a :: b :: c' :: post).take (i + 1)) < 3 := by
  obtain ⟨j, hj, heq⟩ := alignFireEvents_window a b c' post ha hb hc pre 0
  obtain ⟨h1, h2⟩ := alignFireEvents_first _ _ _ heq
  exact ⟨j, heq, hj, h1, h2⟩

/-- Witness for C6: errors [25, 0, 0, 0, 0] fire exactly once, at cycle 3. -/
theorem aligning_transition_fires_once_witness :
    ∃ j, alignFireEvents 0 ([25] ++ 0 :: 0 :: 0 :: [0]) = [j] ∧
      j ≤ [25].length + 2 ∧
      3 ≤ alignCount 0 (([25] ++ 0 :: 0 :: 0 :: [0]).take (j + 1)) ∧
      ∀ i < j, alignCount 0 (([25] ++ 0 :: 0 :: 0 :: [0]).take (i + 1)) < 3 :=
  aligning_transition_fires_once [25] [0] 0 0 0 (by decide) (by decide) (by decide)

/-! The approach phase with distance monitoring is
`_approach_with_alignment_OLD` (lines 431–558): each outer iteration
reads a detection; with none, it stops as "destination reached" if
`last_known_distance < 15.0` and as lost otherwise; with a reading it
updates `last_known_distance` (if positive), stops as reached when
`dist <= 5.0`, stops as reached at the shoulder lower limit
(`shoulder <= 0`), else decrements the shoulder and continues (up to 150
iterations).  (The active `_hybrid_ml_reach` path reaches and grasps
open-loop without reading distances at all.) -/

/-- The outer loop of `_approach_with_alignment_OLD` over the per-
iteration distance readings (`none` = detection lost this iteration).
`it` is the 1-based iteration counter; result `some (i, true)` means the
loop stopped at reading `i` as "destination reached", `some (i, false)`
that it stopped there as lost; `none` that the readings (or the 150
iteration budget) ran out. -/
def approachRun (it : ℕ) (shoulder : ℤ) (lastKnown : ℚ) :
    List (Option ℚ) → Option (ℕ × Bool)
  | [] => none
  | r :: rest =>
    match r with
    | none => if lastKnown < 15 then some (0, true) else some (0, false)
    | some d =>
      let lk := if 0 < d then d else lastKnown
      if d ≤ 5 then some (0, true)
      else if shoulder ≤ 0 then some (0, true)
      else if 150 < it then none
      else (approachRun (it + 1) (shoulder - 1) lk rest).map fun p => (p.1 + 1, p.2)

/-- `last_known_distance` after a run of positive readings: each positive
reading overwrites it. -/
def lkFold (lk : ℚ) (ds : List ℚ) : ℚ :=
  ds.foldl (fun acc d => if 0 < d then d else acc) lk

/-- C4 counterexample: with the shoulder already at its lower limit, the
approach stops as "destination reached" on a reading of 25 cm — no
reading was ≤ 5 cm and detection was never lost, so the transition does
not happen "exactly when the distance first reads ≤ 5 cm or detection is
lost near". -/
theorem approach_reached_at_shoulder_limit :
    approachRun 1 0 25 [some 25] = some (0, true) ∧ ¬ ((25 : ℚ) ≤ 5) := by
  constructor
  · rfl
  · norm_num

/-- C4 (amended): during the approach phase the "destination reached"
stop fires exactly at the first reading ≤ 5 cm; or earlier, at a lost
detection, as reached iff the last known distance is below 15 cm; or
earlier, when the shoulder reaches its lower limit (safety backup). -/
theorem approach_stop_triggers :
    (∀ (ds : List ℚ) (dfin : ℚ) (rest : List (Option ℚ)) (shoulder : ℤ)
      (lastKnown : ℚ) (it : ℕ),
      (∀ d ∈ ds, 5 < d) → dfin ≤ 5 → (ds.length : ℤ) ≤ shoulder →
      it + ds.length ≤ 151 →
      approachRun it shoulder lastKnown (ds.map some ++ some dfin :: rest) =
        some (ds.length, true)) ∧
    (∀ (ds : List ℚ) (rest : List (Option ℚ)) (shoulder : ℤ)
      (lastKnown : ℚ) (it : ℕ),
      (∀ d ∈ ds, 5 < d) → (ds.length : ℤ) ≤ shoulder →
      it + ds.length ≤ 151 →
      approachRun it shoulder lastKnown (ds.map some ++ none :: rest) =
        some (ds.length, if lkFold lastKnown ds < 15 then true else false)) ∧
    (∀ (d : ℚ) (rest : List (Option ℚ)) (shoulder : ℤ) (lastKnown : ℚ) (it : ℕ),
      5 < d → shoulder ≤ 0 →
      approachRun it shoulder lastKnown (some d :: rest) = some (0, true)) := by
  refine ⟨?_, ?_, ?_⟩
  · intro ds
    induction ds with
    | nil =>
      intro dfin rest shoulder lastKnown it _ hfin _ _
      simp [approachRun, hfin]
    | cons d ds ih =>
      intro dfin rest shoulder lastKnown it hgt hfin hsh hit
      have hd : 5 < d := hgt d (by simp)
      have h1 : ¬ d ≤ 5 := by linarith
      have h2 : ¬ shoulder ≤ 0 := by
        simp only [List.length_cons] at hsh; push_cast at hsh; omega
      have h3 : ¬ 150 < it := by
        simp only [List.length_cons] at hit; omega
      simp only [List.map_cons, List.cons_append, approachRun, h1, h2, h3,
        if_false, if_neg]
      simp only [List.append_eq]
      rw [ih dfin rest (shoulder - 1) (if 0 < d then d else lastKnown) (it + 1)
        (fun x hx => hgt x (by simp [hx]))
        hfin
        (by simp only [List.length_cons] at hsh; push_cast at hsh ⊢; omega)
        (by simp only [List.length_cons] at hit; omega)]
      simp
  · intro ds
    induction ds with
    | nil =>
      intro rest shoulder lastKnown it _ _ _
      by_cases hlk : lastKnown < 15 <;> simp [approachRun, lkFold, hlk]
    | cons d ds ih =>
      intro rest shoulder lastKnown it hgt hsh hit
      have hd : 5 < d := hgt d (by simp)
      have h0 : 0 < d := by linarith
      have h1 : ¬ d ≤ 5 := by linarith
      have h2 : ¬ shoulder ≤ 0 := by
        simp only [List.length_cons] at hsh; push_cast at hsh; omega
      have h3 : ¬ 150 < it := by
        simp only [List.length_cons] at hit; omega
      simp only [List.map_cons, List.cons_append, approachRun, h1, h2, h3,
        if_false, if_neg]
      simp only [List.append_eq]
      rw [ih rest (shoulder - 1) (if 0 < d then d else lastKnown) (it + 1)
        (fun x hx => hgt x (by simp [hx]))
        (by simp only [List.length_cons] at hsh; push_cast at hsh ⊢; omega)
        (by simp only [List.length_cons] at hit; omega)]
      simp [lkFold, h0]
  · intro d rest shoulder lastKnown it hd hsh
    have h1 : ¬ d ≤ 5 := by linarith
    simp [approachRun, h1, hsh]

/-- Witness for C4's amended statement at Scenario B: readings
[25, 18, 12, 6, 3] with threshold 5 stop as reached exactly at the first
reading ≤ 5 (index 4). -/
theorem approach_stop_triggers_witness :
    approachRun 1 100 25 ([25, 18, 12, 6].map some ++ some 3 :: []) =
      some ([25, 18, 12, 6].length, true) :=
  approach_stop_triggers.1 [25, 18, 12, 6] 3 [] 100 25 1
    (by intro d hd; fin_cases hd <;> norm_num)
    (by norm_num) (by norm_num) (by norm_num)

/-! ## Cancellation: `VisualServoingAgent.stop` (lines 175–179)

`stop()` sets `running = False` and joins the session thread with a 1 s
timeout.  The observable agent state is (running, session thread alive);
`joinOk` is whether the join completes within the bounded timeout
(joining a dead thread returns immediately, so it trivially completes). -/

structure AgentState where
  running : Bool
  threadAlive : Bool

/-- `VisualServoingAgent.stop`: clear `running`, join the thread; the
thread stays alive only when it was alive and the join timed out. -/
def stopAgent (joinOk : Bool) (s : AgentState) : AgentState :=
  ⟨false, s.threadAlive && !joinOk⟩

/-- C9: stop is idempotent — once a first `stop()` has completed (running
cleared, thread joined within the timeout), any further `stop()` leaves
the agent state exactly as the first call did, whatever its own join
outcome. -/
theorem stopAgent_idempotent (s : AgentState) (j : Bool) :
    stopAgent j (stopAgent true s) = stopAgent true s := by
  simp [stopAgent]

/-- Witness for C9 on a running agent with a live session thread. -/
theorem stopAgent_idempotent_witness :
    stopAgent false (stopAgent true ⟨true, true⟩) = stopAgent true ⟨true, true⟩ :=
  stopAgent_idempotent ⟨true, true⟩ false

end RoboticArm
